import Mathlib

/-!
Verification of the room relay server (`src/worker.js`): a WebSocket room
with at most 4 seats, seat allocation, presence bookkeeping, message
dispatch (`join`/`ping`/`in`/`snap`) and broadcast semantics.

The embedding is shallow:
* JSON values are the inductive `JVal`; a frame the server sends is the
  `JVal` object that `JSON.stringify` would serialize (so a field whose
  value is JS `undefined`, which stringify omits, is simply absent).
* The per-room mutable state (`this.sockets`, `this.names`) is the
  structure `RoomState`.  `this.sockets` is a JS `Map` from slot to the
  socket handle; since slot↔socket is one-to-one we model it as the
  insertion-ordered list of occupied slots.
* Each event handler of class `Room` becomes a pure function
  `RoomState → … → RoomState × List Out`, where `Out` records the send
  and close effects in program order.
* Reachable room states are generated by the inductive `Reachable`,
  whose events mirror the Durable Object runtime: `fetch` (admission),
  `webSocketMessage` and `webSocketClose`/`webSocketError` for a socket
  that is currently accepted (its metadata slot is the key under which
  it sits in `this.sockets`), plus the degenerate events where
  `getWebSocketMetadata` yields no usable slot.
-/

/-- JSON values (the result of a successful `JSON.parse`, and the content
of frames the server stringifies). Numbers are modelled as integers: the
relay never does arithmetic on them, it only tests `typeof x === "number"`
and passes them through. -/
inductive JVal where
  | null : JVal
  | bool : Bool → JVal
  | num : Int → JVal
  | str : String → JVal
  | arr : List JVal → JVal
  | obj : List (String × JVal) → JVal

/-- JS property access `v.k` for the property names the handler reads.
On an object it is the first binding of `k`; on any non-object it yields
`none` (JS `undefined`; for `v = null` JS would throw instead, but the
observable effect in every handler — no mutation, nothing sent — is the
same as falling through all the `if` tests). -/
def jget (v : JVal) (k : String) : Option JVal :=
  match v with
  | .obj fields =>
    match fields.find? (fun p => p.1 = k) with
    | some p => some p.2
    | none => none
  | _ => none

/-- Effects a handler performs, in program order. -/
inductive Out where
  /-- `ws.send(frame)` to the socket currently seated at `slot`. -/
  | send : Nat → JVal → Out
  /-- `server.send(frame)` to a connection that was never seated
  (the `ROOM_FULL` rejection path). -/
  | sendNew : JVal → Out
  /-- `server.close(code, reason)` on that never-seated connection. -/
  | closeNew : Nat → String → Out

/-- Per-room mutable state of class `Room`. -/
structure RoomState where
  /-- Keys of the JS `Map` `this.sockets`, in insertion order. -/
  sockets : List Nat
  /-- `this.names`, always a 4-element array of strings. -/
  names : List String
deriving DecidableEq

/-- `constructor`: `this.sockets = new Map(); this.names = ["","","",""]`. -/
def initRoom : RoomState := ⟨[], ["", "", "", ""]⟩

/-- JS `Map.has`. -/
def mapHas (m : List Nat) (k : Nat) : Bool := m.contains k

/-- JS `Map.set` restricted to keys: a fresh key is appended in iteration
order, an existing key keeps its position. -/
def mapSet (m : List Nat) (k : Nat) : List Nat :=
  if m.contains k then m else m ++ [k]

/-- JS `Map.delete` restricted to keys. -/
def mapDelete (m : List Nat) (k : Nat) : List Nat :=
  m.filter (fun x => x ≠ k)

/-- The loop of `_allocSlot`: `for (let i = 0; i < 4; i++) if
(!this.sockets.has(i)) return i; return -1;`.  `fuel` is the number of
iterations left (`4 - i`). -/
def allocSlotLoop (sockets : List Nat) : Nat → Nat → Int
  | _, 0 => -1
  | i, fuel + 1 => if mapHas sockets i then allocSlotLoop sockets (i + 1) fuel else (i : Int)

/-- `Room._allocSlot()`: first free seat in `0..3`, else `-1`. -/
def allocSlot (sockets : List Nat) : Int := allocSlotLoop sockets 0 4

/-- One `{slot, name}` entry of a presence listing. -/
structure Player where
  slot : Nat
  name : String
deriving DecidableEq

/-- JS `x || ""` on a string: the empty string is falsy. (On strings this
is the identity; kept to mirror `this.names[i] || ""`.) -/
def jsOrEmpty (s : String) : String := if s = "" then "" else s

/-- `Room._playersList()`. -/
def playersList (r : RoomState) : List Player :=
  (List.range 4).filterMap (fun i =>
    if mapHas r.sockets i then
      some ⟨i, jsOrEmpty (r.names.getD i "")⟩
    else
      none)

/-- Serialization of a `{slot, name}` entry. -/
def playerJ (p : Player) : JVal := .obj [("slot", .num p.slot), ("name", .str p.name)]

/-- Serialization of a presence listing. -/
def playersJ (ps : List Player) : JVal := .arr (ps.map playerJ)

/-- `{t:"err", code, msg}` frames. -/
def errFrame (code msg : String) : JVal :=
  .obj [("t", .str "err"), ("code", .str code), ("msg", .str msg)]

/-- `{t:"welcome", slot, players}`. -/
def welcomeFrame (slot : Nat) (ps : List Player) : JVal :=
  .obj [("t", .str "welcome"), ("slot", .num slot), ("players", playersJ ps)]

/-- `{t:"join", slot, name}`. -/
def joinFrame (slot : Nat) (name : String) : JVal :=
  .obj [("t", .str "join"), ("slot", .num slot), ("name", .str name)]

/-- `{t:"presence", players}`. -/
def presenceFrame (ps : List Player) : JVal :=
  .obj [("t", .str "presence"), ("players", playersJ ps)]

/-- `{t:"leave", slot}`. -/
def leaveFrame (slot : Nat) : JVal :=
  .obj [("t", .str "leave"), ("slot", .num slot)]

/-- `{t:"pong", c: data.c}` as stringified: when `data.c` is absent
(`undefined`), `JSON.stringify` drops the `c` key entirely. -/
def pongFrame (c : Option JVal) : JVal :=
  .obj ([("t", .str "pong")] ++ (match c with | some v => [("c", v)] | none => []))

/-- The optional `s` field: `if (typeof data.s === "number") payload.s = data.s`. -/
def sField (s : Option JVal) : List (String × JVal) :=
  match s with
  | some (.num n) => [("s", .num n)]
  | _ => []

/-- The relayed `{t:"in", slot, i, s?}` payload. -/
def inFrame (slot : Nat) (i : JVal) (s : Option JVal) : JVal :=
  .obj ([("t", .str "in"), ("slot", .num slot), ("i", i)] ++ sField s)

/-- The relayed `{t:"snap", st, s?}` payload (the code adds no `slot` key). -/
def snapFrame (st : JVal) (s : Option JVal) : JVal :=
  .obj ([("t", .str "snap"), ("st", st)] ++ sField s)

/-- `data.i ?? null` / `data.st ?? null`: absent or `null` becomes `null`. -/
def jsNullish (v : Option JVal) : JVal := v.getD .null

/-- `Room._broadcastAll(obj)`: send to every socket in `Map` iteration
order (a failed individual send is swallowed; `Out.send` records the
attempt). -/
def broadcastAll (sockets : List Nat) (frame : JVal) : List Out :=
  sockets.map (fun s => Out.send s frame)

/-- `Room._broadcastExcept(exceptSlot, obj)`: send to every socket except
the one keyed `exceptSlot`, in `Map` iteration order. -/
def broadcastExcept (sockets : List Nat) (exceptSlot : Nat) (frame : JVal) : List Out :=
  (sockets.filter (fun s => s ≠ exceptSlot)).map (fun s => Out.send s frame)

/-- `name.slice(0, 24)`: the first 24 characters. (JS slices by UTF-16
code unit; we model strings as sequences of characters.) -/
def strTrunc24 (s : String) : String := ⟨s.data.take 24⟩

/-- `Room.fetch` after the upgrade-header check, for an upgrade request:
allocate a seat; on `-1` send `ROOM_FULL` and close (no state change);
otherwise accept the socket under `{slot}`, seat it, send `welcome` with
the post-insertion presence listing, and broadcast `join` to the others. -/
def roomFetch (r : RoomState) : RoomState × List Out :=
  let slot := allocSlot r.sockets
  if slot = -1 then
    (r, [Out.sendNew (errFrame "ROOM_FULL" "Room full (max 4)."),
         Out.closeNew 1008 "room full"])
  else
    let k := slot.toNat
    let r1 : RoomState := { r with sockets := mapSet r.sockets k }
    (r1,
      Out.send k (welcomeFrame k (playersList r1)) ::
        broadcastExcept r1.sockets k (joinFrame k (r1.names.getD k "")))

/-- An inbound WebSocket message: either one that `JSON.parse` rejects,
or its parsed value. -/
inductive InMsg where
  | malformed : InMsg
  | parsed : JVal → InMsg

/-- `Room.webSocketMessage(ws, message)`.  `meta` is the slot from
`getWebSocketMetadata(ws)`; `none` covers both a missing metadata object
and a non-numeric `slot` field (the handler returns early on either). -/
def webSocketMessage (r : RoomState) (meta : Option Nat) (m : InMsg) :
    RoomState × List Out :=
  match meta with
  | none => (r, [])
  | some slot =>
    match m with
    | .malformed => (r, [Out.send slot (errFrame "BAD_JSON" "Invalid JSON")])
    | .parsed data =>
      match jget data "t" with
      | some (.str t) =>
        if t = "join" then
          let name :=
            match jget data "name" with
            | some (.str s) => strTrunc24 s
            | _ => ""
          let r1 : RoomState := { r with names := r.names.set slot name }
          (r1,
            broadcastAll r1.sockets (joinFrame slot name) ++
              [Out.send slot (presenceFrame (playersList r1))])
        else if t = "ping" then
          (r, [Out.send slot (pongFrame (jget data "c"))])
        else if t = "in" then
          let payload := inFrame slot (jsNullish (jget data "i")) (jget data "s")
          (r, broadcastExcept r.sockets slot payload)
        else if t = "snap" then
          let payload := snapFrame (jsNullish (jget data "st")) (jget data "s")
          (r, broadcastExcept r.sockets slot payload)
        else
          (r, [])
      | _ => (r, [])

/-- `Room.webSocketClose(ws)`. -/
def webSocketClose (r : RoomState) (meta : Option Nat) : RoomState × List Out :=
  match meta with
  | none => (r, [])
  | some slot =>
    let r1 : RoomState :=
      { sockets := mapDelete r.sockets slot, names := r.names.set slot "" }
    (r1,
      broadcastAll r1.sockets (leaveFrame slot) ++
        broadcastAll r1.sockets (presenceFrame (playersList r1)))

/-- `Room.webSocketError(ws)` just delegates to `webSocketClose`. -/
def webSocketError (r : RoomState) (meta : Option Nat) : RoomState × List Out :=
  webSocketClose r meta

/-- Room states reachable from the fresh room through the serialized
event handlers.  A `msg`/`close`/`err` event for slot `k` requires
`k ∈ sockets`: the runtime only delivers those callbacks for a socket
that was accepted via `acceptWebSocket` and not yet closed, and such a
socket is exactly the `Map` entry under its metadata slot. -/
inductive Reachable : RoomState → Prop where
  | init : Reachable initRoom
  | fetch {r} : Reachable r → Reachable (roomFetch r).1
  | msg {r k m} : Reachable r → k ∈ r.sockets →
      Reachable (webSocketMessage r (some k) m).1
  | close {r k} : Reachable r → k ∈ r.sockets →
      Reachable (webSocketClose r (some k)).1
  | err {r k} : Reachable r → k ∈ r.sockets →
      Reachable (webSocketError r (some k)).1
  | msgNone {r m} : Reachable r → Reachable (webSocketMessage r none m).1
  | closeNone {r} : Reachable r → Reachable (webSocketClose r none).1

/-! ### Concrete runs used as witnesses -/

/-- The room after one admission: seat 0 occupied. -/
def demo1 : RoomState := (roomFetch initRoom).1

/-- A parsed `join` message carrying the name `"Al"`. -/
def demoJoinMsg : JVal := .obj [("t", .str "join"), ("name", .str "Al")]

/-- `demo1` after seat 0 sends `join{name:"Al"}`. -/
def demo2 : RoomState := (webSocketMessage demo1 (some 0) (.parsed demoJoinMsg)).1

/-- `demo2` after seat 0 disconnects. -/
def demo3 : RoomState := (webSocketClose demo2 (some 0)).1

/-- The room after four admissions: seats 0–3 occupied. -/
def demoFull : RoomState :=
  (roomFetch (roomFetch (roomFetch (roomFetch initRoom).1).1).1).1

/-- A two-seat room used to exercise the relay paths. -/
def demoTwo : RoomState := (roomFetch demo1).1

/-- A parsed `snap` message with payload `7` and no `s`. -/
def demoSnapMsg : JVal := .obj [("t", .str "snap"), ("st", .num 7)]

/-- A parsed `in` message with no `i` field and a non-numeric `s`. -/
def demoInMsg : JVal := .obj [("t", .str "in"), ("s", .str "x")]

/-! ### Basic lemmas about the state helpers -/

lemma mapHas_iff_mem (m : List Nat) (k : Nat) : mapHas m k ↔ k ∈ m := by
  simp [mapHas, List.elem_iff]

lemma getD_set_self (l : List String) (i : Nat) (a : String) (h : i < l.length) :
    (l.set i a).getD i "" = a := by
  simp [List.getD, List.getElem?_set, h]

lemma getD_set_ne (l : List String) (i j : Nat) (a : String) (h : i ≠ j) :
    (l.set i a).getD j "" = l.getD j "" := by
  simp [List.getD, List.getElem?_set, h]

/-- Exhaustive description of `_allocSlot`: either the room is full and it
returns `-1`, or it returns the least free seat below 4. -/
lemma allocSlot_cases (s : List Nat) :
    (allocSlot s = -1 ∧ 0 ∈ s ∧ 1 ∈ s ∧ 2 ∈ s ∧ 3 ∈ s) ∨
    (∃ k : Nat, allocSlot s = (k : Int) ∧ k < 4 ∧ k ∉ s ∧ ∀ j : Nat, j < k → j ∈ s) := by
  by_cases h0 : (0 : Nat) ∈ s
  · by_cases h1 : (1 : Nat) ∈ s
    · by_cases h2 : (2 : Nat) ∈ s
      · by_cases h3 : (3 : Nat) ∈ s
        · left
          refine ⟨?_, h0, h1, h2, h3⟩
          simp [allocSlot, allocSlotLoop, mapHas_iff_mem, h0, h1, h2, h3]
        · right
          refine ⟨3, ?_, by omega, h3, ?_⟩
          · simp [allocSlot, allocSlotLoop, mapHas_iff_mem, h0, h1, h2, h3]
          · intro j hj
            interval_cases j <;> assumption
      · right
        refine ⟨2, ?_, by omega, h2, ?_⟩
        · simp [allocSlot, allocSlotLoop, mapHas_iff_mem, h0, h1, h2]
        · intro j hj
          interval_cases j <;> assumption
    · right
      refine ⟨1, ?_, by omega, h1, ?_⟩
      · simp [allocSlot, allocSlotLoop, mapHas_iff_mem, h0, h1]
      · intro j hj
        interval_cases j
        assumption
  · right
    refine ⟨0, ?_, by omega, h0, ?_⟩
    · simp [allocSlot, allocSlotLoop, mapHas_iff_mem, h0]
    · intro j hj
      omega

lemma strTrunc24_length_le (s : String) : (strTrunc24 s).length ≤ 24 := by
  have h : (strTrunc24 s).length = (s.data.take 24).length := rfl
  rw [h, List.length_take]
  omega

/-! ### The room invariant -/

/-- Invariant of reachable room states: the seat map is duplicate-free
with seats in `[0,4)`, `names` is the 4-element array, every stored name
has at most 24 characters, and every vacant seat's name is empty. -/
structure RoomInv (r : RoomState) : Prop where
  nodup : r.sockets.Nodup
  lt4 : ∀ k ∈ r.sockets, k < 4
  namesLen : r.names.length = 4
  nameBound : ∀ n ∈ r.names, n.length ≤ 24
  vacantEmpty : ∀ k, k < 4 → k ∉ r.sockets → r.names.getD k "" = ""

lemma RoomInv.init : RoomInv initRoom := by
  refine ⟨by simp [initRoom], by simp [initRoom], by simp [initRoom], ?_, ?_⟩
  · intro n hn
    simp only [initRoom, List.mem_cons, List.not_mem_nil, or_false] at hn
    rcases hn with h | h | h | h <;> simp [h]
  · intro k hk _
    interval_cases k <;> rfl

lemma RoomInv.occ_le_four {r : RoomState} (h : RoomInv r) : r.sockets.length ≤ 4 := by
  have hcard : r.sockets.toFinset.card = r.sockets.length :=
    List.toFinset_card_of_nodup h.nodup
  have hsub : r.sockets.toFinset ⊆ Finset.range 4 := by
    intro k hk
    simp only [List.mem_toFinset] at hk
    simpa using h.lt4 k hk
  calc r.sockets.length = r.sockets.toFinset.card := hcard.symm
    _ ≤ (Finset.range 4).card := Finset.card_le_card hsub
    _ = 4 := Finset.card_range 4

/-- In a state satisfying the invariant with all 4 seats taken, every
seat below 4 is occupied, so allocation fails. -/
lemma allocSlot_of_full {r : RoomState} (h : RoomInv r) (hfull : r.sockets.length = 4) :
    allocSlot r.sockets = -1 := by
  have hcard : r.sockets.toFinset.card = r.sockets.length :=
    List.toFinset_card_of_nodup h.nodup
  have hsub : r.sockets.toFinset ⊆ Finset.range 4 := by
    intro k hk
    simp only [List.mem_toFinset] at hk
    simpa using h.lt4 k hk
  have heq : r.sockets.toFinset = Finset.range 4 := by
    apply Finset.eq_of_subset_of_card_le hsub
    rw [hcard, hfull, Finset.card_range]
  have hmem : ∀ k : Nat, k < 4 → k ∈ r.sockets := by
    intro k hk
    have : k ∈ r.sockets.toFinset := by
      rw [heq]; simpa using hk
    simpa [List.mem_toFinset] using this
  rcases allocSlot_cases r.sockets with ⟨he, _⟩ | ⟨k, _, hk4, hknot, _⟩
  · exact he
  · exact absurd (hmem k hk4) hknot

/-! ### Shape of each handler's result -/

/-- `fetch` on a full room: error frame, close, state untouched. -/
lemma roomFetch_full {r : RoomState} (he : allocSlot r.sockets = -1) :
    roomFetch r = (r, [Out.sendNew (errFrame "ROOM_FULL" "Room full (max 4)."),
      Out.closeNew 1008 "room full"]) := by
  simp [roomFetch, he]

/-- `fetch` on a room with a free seat `k`: seat `k` is appended to the
socket map, the newcomer gets `welcome` computed after insertion, the
others get `join` with the current stored name. -/
lemma roomFetch_success {r : RoomState} {k : Nat}
    (hek : allocSlot r.sockets = (k : Int)) (hknot : k ∉ r.sockets) :
    roomFetch r =
      ({ r with sockets := r.sockets ++ [k] },
        Out.send k (welcomeFrame k (playersList { r with sockets := r.sockets ++ [k] })) ::
          broadcastExcept (r.sockets ++ [k]) k (joinFrame k (r.names.getD k ""))) := by
  have h1 : allocSlot r.sockets ≠ -1 := by rw [hek]; omega
  have h2 : (allocSlot r.sockets).toNat = k := by rw [hek]; simp
  have h3 : mapSet r.sockets k = r.sockets ++ [k] := by
    simp [mapSet, List.elem_iff, hknot]
  simp only [roomFetch, h2, h3]
  rw [if_neg h1]

/-- Any non-`join` message leaves the room state untouched. -/
lemma webSocketMessage_state_nonjoin {r : RoomState} {slot : Nat} {data : JVal}
    (h : jget data "t" ≠ some (.str "join")) :
    (webSocketMessage r (some slot) (.parsed data)).1 = r := by
  rcases ht : jget data "t" with _ | v
  · simp [webSocketMessage, ht]
  · cases v with
    | str t =>
      have hne : t ≠ "join" := by
        intro hc; exact h (by rw [ht, hc])
      simp only [webSocketMessage, ht]
      rw [if_neg hne]
      split_ifs <;> rfl
    | null => simp [webSocketMessage, ht]
    | bool b => simp [webSocketMessage, ht]
    | num n => simp [webSocketMessage, ht]
    | arr l => simp [webSocketMessage, ht]
    | obj l => simp [webSocketMessage, ht]

/-- The name a `join` message stores. -/
def joinName (data : JVal) : String :=
  match jget data "name" with
  | some (.str s) => strTrunc24 s
  | _ => ""

lemma joinName_length_le (data : JVal) : (joinName data).length ≤ 24 := by
  rcases hn : jget data "name" with _ | v
  · simp [joinName, hn]
  · cases v with
    | str s => simpa [joinName, hn] using strTrunc24_length_le s
    | null => simp [joinName, hn]
    | bool b => simp [joinName, hn]
    | num n => simp [joinName, hn]
    | arr l => simp [joinName, hn]
    | obj l => simp [joinName, hn]

/-- Shape of the `join` branch of `webSocketMessage`. -/
lemma webSocketMessage_join {r : RoomState} {slot : Nat} {data : JVal}
    (h : jget data "t" = some (.str "join")) :
    webSocketMessage r (some slot) (.parsed data) =
      ({ r with names := r.names.set slot (joinName data) },
        broadcastAll r.sockets (joinFrame slot (joinName data)) ++
          [Out.send slot (presenceFrame
            (playersList { r with names := r.names.set slot (joinName data) }))]) := by
  simp [webSocketMessage, h, joinName]

/-! ### Invariant preservation and reachability -/

lemma RoomInv.fetch {r : RoomState} (h : RoomInv r) : RoomInv (roomFetch r).1 := by
  rcases allocSlot_cases r.sockets with ⟨he, _⟩ | ⟨k, hek, hk4, hknot, _⟩
  · rw [roomFetch_full he]
    exact h
  · rw [roomFetch_success hek hknot]
    refine ⟨?_, ?_, h.namesLen, h.nameBound, ?_⟩
    · simpa [List.nodup_append, hknot] using h.nodup
    · intro j hj
      rcases List.mem_append.mp hj with hj | hj
      · exact h.lt4 j hj
      · simp only [List.mem_singleton] at hj
        omega
    · intro j hj4 hjn
      exact h.vacantEmpty j hj4 (fun hc => hjn (List.mem_append.mpr (Or.inl hc)))

lemma RoomInv.msgSome {r : RoomState} {slot : Nat} {m : InMsg}
    (h : RoomInv r) (hs : slot ∈ r.sockets) :
    RoomInv (webSocketMessage r (some slot) m).1 := by
  cases m with
  | malformed => exact h
  | parsed data =>
    by_cases ht : jget data "t" = some (.str "join")
    · rw [webSocketMessage_join ht]
      have hslot4 : slot < 4 := h.lt4 slot hs
      refine ⟨h.nodup, h.lt4, by simpa using h.namesLen, ?_, ?_⟩
      · intro n hn
        rcases List.mem_or_eq_of_mem_set hn with hn | hn
        · exact h.nameBound n hn
        · rw [hn]; exact joinName_length_le data
      · intro j hj4 hjn
        have hne : slot ≠ j := fun hc => hjn (hc ▸ hs)
        rw [getD_set_ne _ _ _ _ hne]
        exact h.vacantEmpty j hj4 hjn
    · rw [webSocketMessage_state_nonjoin ht]
      exact h

lemma RoomInv.closeSome {r : RoomState} {slot : Nat}
    (h : RoomInv r) (hs : slot ∈ r.sockets) :
    RoomInv (webSocketClose r (some slot)).1 := by
  have hslot4 : slot < 4 := h.lt4 slot hs
  refine ⟨?_, ?_, ?_, ?_, ?_⟩
  · exact h.nodup.filter _
  · intro j hj
    exact h.lt4 j (List.mem_of_mem_filter hj)
  · simpa [webSocketClose, mapDelete] using h.namesLen
  · intro n hn
    rcases List.mem_or_eq_of_mem_set hn with hn | hn
    · exact h.nameBound n hn
    · rw [hn]; simp
  · intro j hj4 hjn
    simp only [webSocketClose, mapDelete] at hjn ⊢
    by_cases hje : j = slot
    · subst hje
      exact getD_set_self _ _ _ (by rw [h.namesLen]; exact hslot4)
    · rw [getD_set_ne _ _ _ _ (fun hc => hje hc.symm)]
      refine h.vacantEmpty j hj4 (fun hc => hjn ?_)
      simp [List.mem_filter, hc, hje]

lemma reachable_inv {r : RoomState} (h : Reachable r) : RoomInv r := by
  induction h with
  | init => exact RoomInv.init
  | fetch _ ih => exact ih.fetch
  | msg _ hs ih => exact ih.msgSome hs
  | close _ hs ih => exact ih.closeSome hs
  | err _ hs ih => exact ih.closeSome hs
  | msgNone _ ih => exact ih
  | closeNone _ ih => exact ih

/-! ### Broadcast and presence lemmas -/

lemma broadcastAll_mem {sockets : List Nat} {d : Nat} (frame : JVal)
    (hd : d ∈ sockets) : Out.send d frame ∈ broadcastAll sockets frame := by
  simp only [broadcastAll, List.mem_map]
  exact ⟨d, hd, rfl⟩

lemma broadcastExcept_mem {sockets : List Nat} {ex d : Nat} (frame : JVal)
    (hd : d ∈ sockets) (hne : d ≠ ex) :
    Out.send d frame ∈ broadcastExcept sockets ex frame := by
  simp only [broadcastExcept, List.mem_map, List.mem_filter]
  exact ⟨d, ⟨hd, by simpa using hne⟩, rfl⟩

lemma broadcastExcept_not_to_sender {sockets : List Nat} {ex : Nat} (frame : JVal) :
    ∀ f : JVal, Out.send ex f ∉ broadcastExcept sockets ex frame := by
  intro f hf
  simp only [broadcastExcept, List.mem_map, List.mem_filter] at hf
  rcases hf with ⟨d, ⟨_, hne⟩, heq⟩
  cases heq
  simp at hne

lemma playersList_mem_of {r : RoomState} {k : Nat} (hk : k ∈ r.sockets) (hk4 : k < 4) :
    (⟨k, jsOrEmpty (r.names.getD k "")⟩ : Player) ∈ playersList r := by
  simp only [playersList, List.mem_filterMap, List.mem_range]
  refine ⟨k, hk4, ?_⟩
  rw [if_pos ((mapHas_iff_mem _ _).mpr hk)]

lemma playersList_slot_mem {r : RoomState} {p : Player} (hp : p ∈ playersList r) :
    p.slot ∈ r.sockets := by
  simp only [playersList, List.mem_filterMap, List.mem_range] at hp
  rcases hp with ⟨i, _, hi⟩
  by_cases hmem : mapHas r.sockets i
  · rw [if_pos hmem] at hi
    cases hi
    exact (mapHas_iff_mem _ _).mp hmem
  · rw [if_neg hmem] at hi
    cases hi

/-! ### Field lookups on the relayed frames -/

lemma sField_eq_nil_of_nonnum {v : JVal} (h : ∀ n : Int, v ≠ .num n) :
    sField (some v) = [] := by
  cases v with
  | num n => exact absurd rfl (h n)
  | null => rfl
  | bool b => rfl
  | str s => rfl
  | arr l => rfl
  | obj l => rfl

lemma jget_snapFrame_slot (st : JVal) (s : Option JVal) :
    jget (snapFrame st s) "slot" = none := by
  rcases s with _ | v
  · rfl
  · cases v <;> rfl

lemma jget_snapFrame_st (st : JVal) (s : Option JVal) :
    jget (snapFrame st s) "st" = some st := by
  rfl

lemma jget_inFrame_i (slot : Nat) (i : JVal) (s : Option JVal) :
    jget (inFrame slot i s) "i" = some i := by
  rfl

lemma jget_inFrame_s_nonnum (slot : Nat) (i : JVal) {v : JVal}
    (h : ∀ n : Int, v ≠ .num n) : jget (inFrame slot i (some v)) "s" = none := by
  simp only [inFrame, sField_eq_nil_of_nonnum h]
  rfl

lemma jget_snapFrame_s_nonnum (st : JVal) {v : JVal}
    (h : ∀ n : Int, v ≠ .num n) : jget (snapFrame st (some v)) "s" = none := by
  simp only [snapFrame, sField_eq_nil_of_nonnum h]
  rfl

/-- Shape of the `in` branch of `webSocketMessage`. -/
lemma webSocketMessage_in {r : RoomState} {slot : Nat} {data : JVal}
    (h : jget data "t" = some (.str "in")) :
    webSocketMessage r (some slot) (.parsed data) =
      (r, broadcastExcept r.sockets slot
        (inFrame slot (jsNullish (jget data "i")) (jget data "s"))) := by
  simp [webSocketMessage, h]

/-- Shape of the `snap` branch of `webSocketMessage`. -/
lemma webSocketMessage_snap {r : RoomState} {slot : Nat} {data : JVal}
    (h : jget data "t" = some (.str "snap")) :
    webSocketMessage r (some slot) (.parsed data) =
      (r, broadcastExcept r.sockets slot
        (snapFrame (jsNullish (jget data "st")) (jget data "s"))) := by
  simp [webSocketMessage, h]

/-! ### Reachability of the demo runs -/

lemma demo1_reachable : Reachable demo1 := Reachable.fetch Reachable.init

lemma demo2_reachable : Reachable demo2 :=
  Reachable.msg demo1_reachable (by decide)

lemma demo3_reachable : Reachable demo3 :=
  Reachable.close demo2_reachable (by decide)

lemma demoTwo_reachable : Reachable demoTwo := Reachable.fetch demo1_reachable

lemma demoFull_reachable : Reachable demoFull :=
  Reachable.fetch (Reachable.fetch (Reachable.fetch (Reachable.fetch Reachable.init)))

/-! ### Claim theorems -/

/-- C1: in every reachable room state at most 4 seats are occupied, and an
admission attempted while all 4 seats are occupied sends a single
`{t:"err", code:"ROOM_FULL"}` frame to the rejected connection, closes it
with code 1008, creates no session (seat map, names and session set are
unchanged) and sends nothing to any existing session. -/
theorem roomCapacity_and_full_rejection {r : RoomState} (h : Reachable r) :
    r.sockets.length ≤ 4 ∧
    (r.sockets.length = 4 →
      roomFetch r =
        (r, [Out.sendNew (errFrame "ROOM_FULL" "Room full (max 4)."),
          Out.closeNew 1008 "room full"]) ∧
      ∀ (k : Nat) (f : JVal), Out.send k f ∉ (roomFetch r).2) := by
  have hinv := reachable_inv h
  refine ⟨hinv.occ_le_four, fun hfull => ?_⟩
  have heq := roomFetch_full (allocSlot_of_full hinv hfull)
  refine ⟨heq, ?_⟩
  intro k f hf
  rw [heq] at hf
  simp at hf

theorem roomCapacity_and_full_rejection_witness :
    demoFull.sockets.length ≤ 4 ∧
    (demoFull.sockets.length = 4 →
      roomFetch demoFull =
        (demoFull, [Out.sendNew (errFrame "ROOM_FULL" "Room full (max 4)."),
          Out.closeNew 1008 "room full"]) ∧
      ∀ (k : Nat) (f : JVal), Out.send k f ∉ (roomFetch demoFull).2) :=
  roomCapacity_and_full_rejection demoFull_reachable

/-- C2: when at least one seat is free, allocation returns the
lowest-numbered free seat in `[0,4)` and admission appends exactly that
seat to the seat map. -/
theorem allocSlot_lowest_free {r : RoomState}
    (hfree : ∃ j : Nat, j < 4 ∧ j ∉ r.sockets) :
    ∃ k : Nat, allocSlot r.sockets = (k : Int) ∧ k < 4 ∧ k ∉ r.sockets ∧
      (∀ j : Nat, j < 4 → j ∉ r.sockets → k ≤ j) ∧
      (roomFetch r).1.sockets = r.sockets ++ [k] := by
  rcases allocSlot_cases r.sockets with ⟨_, h0, h1, h2, h3⟩ | ⟨k, hek, hk4, hknot, hleast⟩
  · rcases hfree with ⟨j, hj4, hjn⟩
    interval_cases j
    · exact absurd h0 hjn
    · exact absurd h1 hjn
    · exact absurd h2 hjn
    · exact absurd h3 hjn
  · refine ⟨k, hek, hk4, hknot, ?_, ?_⟩
    · intro j hj4 hjn
      by_contra hlt
      exact hjn (hleast j (by omega))
    · rw [roomFetch_success hek hknot]

theorem allocSlot_lowest_free_witness :
    (∃ j : Nat, j < 4 ∧ j ∉ demo1.sockets) ∧
    (∃ k : Nat, allocSlot demo1.sockets = (k : Int) ∧ k < 4 ∧ k ∉ demo1.sockets ∧
      (∀ j : Nat, j < 4 → j ∉ demo1.sockets → k ≤ j) ∧
      (roomFetch demo1).1.sockets = demo1.sockets ++ [k]) :=
  ⟨⟨1, by decide⟩, allocSlot_lowest_free ⟨1, by decide⟩⟩

/-- C3 counterexample: with seats 0 and 1 occupied, a `snap` from seat 0
is relayed to seat 1 as exactly `{t:"snap", st:7}`, a frame with no
`slot` field — refuting the claim that every relayed `snap` frame
carries the sender's slot. -/
theorem snap_no_slot_counterexample :
    (webSocketMessage demoTwo (some 0) (.parsed demoSnapMsg)).2 =
      [Out.send 1 (.obj [("t", .str "snap"), ("st", .num 7)])] ∧
    jget (.obj [("t", .str "snap"), ("st", .num 7)]) "slot" = none :=
  ⟨rfl, rfl⟩

/-- C3 (amended): every relayed `snap` frame carries the `st` payload
(plus `s` when numeric) and is fanned out to all sessions except the
sender, but it carries no `slot` field. -/
theorem snap_frame_shape {r : RoomState} {slot : Nat} {data : JVal}
    (ht : jget data "t" = some (.str "snap")) :
    (webSocketMessage r (some slot) (.parsed data)).2 =
      broadcastExcept r.sockets slot
        (snapFrame (jsNullish (jget data "st")) (jget data "s")) ∧
    jget (snapFrame (jsNullish (jget data "st")) (jget data "s")) "slot" = none ∧
    jget (snapFrame (jsNullish (jget data "st")) (jget data "s")) "st" =
      some (jsNullish (jget data "st")) := by
  refine ⟨?_, jget_snapFrame_slot _ _, jget_snapFrame_st _ _⟩
  rw [webSocketMessage_snap ht]

theorem snap_frame_shape_witness :
    jget demoSnapMsg "t" = some (.str "snap") ∧
    ((webSocketMessage demoTwo (some 0) (.parsed demoSnapMsg)).2 =
      broadcastExcept demoTwo.sockets 0
        (snapFrame (jsNullish (jget demoSnapMsg "st")) (jget demoSnapMsg "s")) ∧
    jget (snapFrame (jsNullish (jget demoSnapMsg "st")) (jget demoSnapMsg "s")) "slot" = none ∧
    jget (snapFrame (jsNullish (jget demoSnapMsg "st")) (jget demoSnapMsg "s")) "st" =
      some (jsNullish (jget demoSnapMsg "st"))) :=
  ⟨rfl, snap_frame_shape rfl⟩

/-- C4: a `join` from the session at seat `slot` stores the name (the
given string truncated to 24 characters; empty when the `name` field is
missing or not a string) in `names[slot]`, broadcasts
`{t:"join", slot, name}` to all sessions including the sender, and then
sends the sender `{t:"presence", players}` computed from the updated
state. -/
theorem join_sets_name_and_broadcasts {r : RoomState} {slot : Nat} {data : JVal}
    (hs : slot ∈ r.sockets) (hslot4 : slot < 4) (hlen : r.names.length = 4)
    (ht : jget data "t" = some (.str "join")) :
    (∀ s : String, jget data "name" = some (.str s) → joinName data = strTrunc24 s) ∧
    (∀ v : JVal, jget data "name" = some v → (∀ s : String, v ≠ .str s) →
      joinName data = "") ∧
    (jget data "name" = none → joinName data = "") ∧
    (webSocketMessage r (some slot) (.parsed data)).1.names.getD slot "" = joinName data ∧
    (webSocketMessage r (some slot) (.parsed data)).2 =
      broadcastAll r.sockets (joinFrame slot (joinName data)) ++
        [Out.send slot (presenceFrame
          (playersList ⟨r.sockets, r.names.set slot (joinName data)⟩))] ∧
    (∀ d ∈ r.sockets, Out.send d (joinFrame slot (joinName data)) ∈
      (webSocketMessage r (some slot) (.parsed data)).2) ∧
    Out.send slot (joinFrame slot (joinName data)) ∈
      (webSocketMessage r (some slot) (.parsed data)).2 := by
  have hshape := @webSocketMessage_join r slot data ht
  refine ⟨?_, ?_, ?_, ?_, ?_, ?_, ?_⟩
  · intro s hn
    simp [joinName, hn]
  · intro v hn hv
    cases v with
    | str s => exact absurd rfl (hv s)
    | null => simp [joinName, hn]
    | bool b => simp [joinName, hn]
    | num n => simp [joinName, hn]
    | arr l => simp [joinName, hn]
    | obj l => simp [joinName, hn]
  · intro hn
    simp [joinName, hn]
  · rw [hshape]
    exact getD_set_self _ _ _ (by rw [hlen]; exact hslot4)
  · rw [hshape]
  · intro d hd
    rw [hshape]
    exact List.mem_append.mpr (Or.inl (broadcastAll_mem _ hd))
  · rw [hshape]
    exact List.mem_append.mpr (Or.inl (broadcastAll_mem _ hs))

theorem join_sets_name_and_broadcasts_witness :
    0 ∈ demo1.sockets ∧ 0 < 4 ∧ demo1.names.length = 4 ∧
    jget demoJoinMsg "t" = some (.str "join") ∧
    ((∀ s : String, jget demoJoinMsg "name" = some (.str s) →
        joinName demoJoinMsg = strTrunc24 s) ∧
    (∀ v : JVal, jget demoJoinMsg "name" = some v → (∀ s : String, v ≠ .str s) →
      joinName demoJoinMsg = "") ∧
    (jget demoJoinMsg "name" = none → joinName demoJoinMsg = "") ∧
    (webSocketMessage demo1 (some 0) (.parsed demoJoinMsg)).1.names.getD 0 "" =
      joinName demoJoinMsg ∧
    (webSocketMessage demo1 (some 0) (.parsed demoJoinMsg)).2 =
      broadcastAll demo1.sockets (joinFrame 0 (joinName demoJoinMsg)) ++
        [Out.send 0 (presenceFrame
          (playersList ⟨demo1.sockets, demo1.names.set 0 (joinName demoJoinMsg)⟩))] ∧
    (∀ d ∈ demo1.sockets, Out.send d (joinFrame 0 (joinName demoJoinMsg)) ∈
      (webSocketMessage demo1 (some 0) (.parsed demoJoinMsg)).2) ∧
    Out.send 0 (joinFrame 0 (joinName demoJoinMsg)) ∈
      (webSocketMessage demo1 (some 0) (.parsed demoJoinMsg)).2) :=
  ⟨by decide, by decide, by decide, rfl,
    join_sets_name_and_broadcasts (by decide) (by decide) (by decide) rfl⟩

/-- C5: a relayed `in` or `snap` message goes out as one broadcast that
reaches every other currently-connected session and never the sender. -/
theorem relay_excludes_sender {r : RoomState} {slot : Nat} {data : JVal}
    (ht : jget data "t" = some (.str "in") ∨ jget data "t" = some (.str "snap")) :
    ∃ frame : JVal,
      (webSocketMessage r (some slot) (.parsed data)).2 =
        broadcastExcept r.sockets slot frame ∧
      (∀ d ∈ r.sockets, d ≠ slot →
        Out.send d frame ∈ (webSocketMessage r (some slot) (.parsed data)).2) ∧
      (∀ f : JVal, Out.send slot f ∉ (webSocketMessage r (some slot) (.parsed data)).2) := by
  rcases ht with ht | ht
  · refine ⟨inFrame slot (jsNullish (jget data "i")) (jget data "s"), ?_, ?_, ?_⟩
    · rw [webSocketMessage_in ht]
    · intro d hd hne
      rw [webSocketMessage_in ht]
      exact broadcastExcept_mem _ hd hne
    · intro f
      rw [webSocketMessage_in ht]
      exact broadcastExcept_not_to_sender _ f
  · refine ⟨snapFrame (jsNullish (jget data "st")) (jget data "s"), ?_, ?_, ?_⟩
    · rw [webSocketMessage_snap ht]
    · intro d hd hne
      rw [webSocketMessage_snap ht]
      exact broadcastExcept_mem _ hd hne
    · intro f
      rw [webSocketMessage_snap ht]
      exact broadcastExcept_not_to_sender _ f

theorem relay_excludes_sender_witness :
    (jget demoSnapMsg "t" = some (.str "in") ∨
      jget demoSnapMsg "t" = some (.str "snap")) ∧
    (∃ frame : JVal,
      (webSocketMessage demoTwo (some 0) (.parsed demoSnapMsg)).2 =
        broadcastExcept demoTwo.sockets 0 frame ∧
      (∀ d ∈ demoTwo.sockets, d ≠ 0 →
        Out.send d frame ∈ (webSocketMessage demoTwo (some 0) (.parsed demoSnapMsg)).2) ∧
      (∀ f : JVal, Out.send 0 f ∉ (webSocketMessage demoTwo (some 0) (.parsed demoSnapMsg)).2)) :=
  ⟨Or.inr rfl, relay_excludes_sender (Or.inr rfl)⟩

/-- C6: a disconnection (close; error delegates to close) of the session
at seat `slot` removes that seat from the seat map, clears
`names[slot]` to the empty string (other names untouched), then sends
`{t:"leave", slot}` followed by `{t:"presence", players}` — the listing
freshly computed with `slot` absent — to the same remaining sessions,
while a disconnection with no recognized seat binding is a no-op. -/
theorem disconnect_cleanup {r : RoomState} {slot : Nat}
    (_hs : slot ∈ r.sockets) (hslot4 : slot < 4) (hlen : r.names.length = 4) :
    slot ∉ (webSocketClose r (some slot)).1.sockets ∧
    (∀ j : Nat, j ∈ (webSocketClose r (some slot)).1.sockets ↔
      j ∈ r.sockets ∧ j ≠ slot) ∧
    (webSocketClose r (some slot)).1.names.getD slot "" = "" ∧
    (∀ j : Nat, j ≠ slot →
      (webSocketClose r (some slot)).1.names.getD j "" = r.names.getD j "") ∧
    (webSocketClose r (some slot)).2 =
      broadcastAll (webSocketClose r (some slot)).1.sockets (leaveFrame slot) ++
        broadcastAll (webSocketClose r (some slot)).1.sockets
          (presenceFrame (playersList (webSocketClose r (some slot)).1)) ∧
    (∀ p ∈ playersList (webSocketClose r (some slot)).1, p.slot ≠ slot) ∧
    webSocketClose r none = (r, []) ∧
    webSocketError r (some slot) = webSocketClose r (some slot) := by
  refine ⟨?_, ?_, ?_, ?_, rfl, ?_, rfl, rfl⟩
  · simp [webSocketClose, mapDelete, List.mem_filter]
  · intro j
    simp [webSocketClose, mapDelete, List.mem_filter]
  · exact getD_set_self _ _ _ (by rw [hlen]; exact hslot4)
  · intro j hj
    exact getD_set_ne _ _ _ _ (fun hc => hj hc.symm)
  · intro p hp
    have hmem := playersList_slot_mem hp
    simp only [webSocketClose, mapDelete, List.mem_filter] at hmem
    simpa using hmem.2

theorem disconnect_cleanup_witness :
    0 ∈ demoTwo.sockets ∧ 0 < 4 ∧ demoTwo.names.length = 4 ∧
    (0 ∉ (webSocketClose demoTwo (some 0)).1.sockets ∧
    (∀ j : Nat, j ∈ (webSocketClose demoTwo (some 0)).1.sockets ↔
      j ∈ demoTwo.sockets ∧ j ≠ 0) ∧
    (webSocketClose demoTwo (some 0)).1.names.getD 0 "" = "" ∧
    (∀ j : Nat, j ≠ 0 →
      (webSocketClose demoTwo (some 0)).1.names.getD j "" = demoTwo.names.getD j "") ∧
    (webSocketClose demoTwo (some 0)).2 =
      broadcastAll (webSocketClose demoTwo (some 0)).1.sockets (leaveFrame 0) ++
        broadcastAll (webSocketClose demoTwo (some 0)).1.sockets
          (presenceFrame (playersList (webSocketClose demoTwo (some 0)).1)) ∧
    (∀ p ∈ playersList (webSocketClose demoTwo (some 0)).1, p.slot ≠ 0) ∧
    webSocketClose demoTwo none = (demoTwo, []) ∧
    webSocketError demoTwo (some 0) = webSocketClose demoTwo (some 0)) :=
  ⟨by decide, by decide, by decide, disconnect_cleanup (by decide) (by decide) (by decide)⟩

/-- C7: when admission grants seat `k`, the newcomer's `welcome` frame
carries `k` and the presence listing of the post-insertion state — which
contains an entry for seat `k` itself — and every pre-existing session
receives `{t:"join", slot:k, name}` with the name stored at admission
time. -/
theorem admission_welcome_includes_self {r : RoomState} {k : Nat}
    (hek : allocSlot r.sockets = (k : Int)) :
    k ∉ r.sockets ∧ k < 4 ∧
    (roomFetch r).2 =
      Out.send k (welcomeFrame k (playersList (roomFetch r).1)) ::
        broadcastExcept (roomFetch r).1.sockets k (joinFrame k (r.names.getD k "")) ∧
    (⟨k, jsOrEmpty ((roomFetch r).1.names.getD k "")⟩ : Player) ∈
      playersList (roomFetch r).1 ∧
    (∀ d ∈ r.sockets, Out.send d (joinFrame k (r.names.getD k "")) ∈ (roomFetch r).2) := by
  have hkn : k ∉ r.sockets ∧ k < 4 := by
    rcases allocSlot_cases r.sockets with ⟨he, _⟩ | ⟨k', hek', hk4', hknot', _⟩
    · rw [he] at hek
      omega
    · rw [hek'] at hek
      have : k' = k := by omega
      subst this
      exact ⟨hknot', hk4'⟩
  rcases hkn with ⟨hknot, hk4⟩
  have hshape := roomFetch_success hek hknot
  refine ⟨hknot, hk4, ?_, ?_, ?_⟩
  · rw [hshape]
  · rw [hshape]
    exact playersList_mem_of (List.mem_append.mpr (Or.inr (List.mem_singleton.mpr rfl))) hk4
  · intro d hd
    rw [hshape]
    refine List.mem_cons.mpr (Or.inr ?_)
    exact broadcastExcept_mem _ (List.mem_append.mpr (Or.inl hd))
      (fun hc => hknot (hc ▸ hd))

theorem admission_welcome_includes_self_witness :
    allocSlot demo1.sockets = ((1 : Nat) : Int) ∧
    (1 ∉ demo1.sockets ∧ 1 < 4 ∧
    (roomFetch demo1).2 =
      Out.send 1 (welcomeFrame 1 (playersList (roomFetch demo1).1)) ::
        broadcastExcept (roomFetch demo1).1.sockets 1
          (joinFrame 1 (demo1.names.getD 1 "")) ∧
    (⟨1, jsOrEmpty ((roomFetch demo1).1.names.getD 1 "")⟩ : Player) ∈
      playersList (roomFetch demo1).1 ∧
    (∀ d ∈ demo1.sockets,
      Out.send d (joinFrame 1 (demo1.names.getD 1 "")) ∈ (roomFetch demo1).2)) :=
  ⟨by decide, admission_welcome_includes_self (by decide)⟩

/-- C8: a message that fails JSON parsing produces exactly one
`{t:"err", code:"BAD_JSON"}` frame to the offending session, nothing to
anyone else, no close effect, and no change to the room state. -/
theorem bad_json_local_error (r : RoomState) (slot : Nat) :
    webSocketMessage r (some slot) .malformed =
      (r, [Out.send slot (errFrame "BAD_JSON" "Invalid JSON")]) := rfl

/-- C9: in every reachable room state every stored name has at most 24
characters, and the name of every vacant seat in `[0,4)` is the empty
string. -/
theorem names_bounded_and_vacant_empty {r : RoomState} (h : Reachable r) :
    (∀ n ∈ r.names, n.length ≤ 24) ∧
    (∀ k : Nat, k < 4 → k ∉ r.sockets → r.names.getD k "" = "") := by
  have hinv := reachable_inv h
  exact ⟨hinv.nameBound, hinv.vacantEmpty⟩

theorem names_bounded_and_vacant_empty_witness :
    (∀ n ∈ demo3.names, n.length ≤ 24) ∧
    (∀ k : Nat, k < 4 → k ∉ demo3.sockets → demo3.names.getD k "" = "") :=
  names_bounded_and_vacant_empty demo3_reachable

/-- C10: the relayed `in` frame carries `i: null` when the incoming `i`
is absent or `null` (and the relayed `snap` frame likewise carries
`st: null`), and a non-numeric `s` field is dropped from the relayed
frame in both cases. -/
theorem relay_null_defaults_and_nonnum_s_dropped (r : RoomState) (k : Nat) (d : JVal) :
    (jget d "t" = some (.str "in") →
      (webSocketMessage r (some k) (.parsed d)).2 =
        broadcastExcept r.sockets k
          (inFrame k (jsNullish (jget d "i")) (jget d "s")) ∧
      ((jget d "i" = none ∨ jget d "i" = some .null) →
        jget (inFrame k (jsNullish (jget d "i")) (jget d "s")) "i" = some .null) ∧
      (∀ v : JVal, jget d "s" = some v → (∀ n : Int, v ≠ .num n) →
        jget (inFrame k (jsNullish (jget d "i")) (jget d "s")) "s" = none)) ∧
    (jget d "t" = some (.str "snap") →
      (webSocketMessage r (some k) (.parsed d)).2 =
        broadcastExcept r.sockets k
          (snapFrame (jsNullish (jget d "st")) (jget d "s")) ∧
      ((jget d "st" = none ∨ jget d "st" = some .null) →
        jget (snapFrame (jsNullish (jget d "st")) (jget d "s")) "st" = some .null) ∧
      (∀ v : JVal, jget d "s" = some v → (∀ n : Int, v ≠ .num n) →
        jget (snapFrame (jsNullish (jget d "st")) (jget d "s")) "s" = none)) := by
  constructor
  · intro ht
    refine ⟨by rw [webSocketMessage_in ht], ?_, ?_⟩
    · intro hi
      rw [jget_inFrame_i]
      rcases hi with hi | hi <;> rw [hi] <;> rfl
    · intro v hv hvn
      rw [hv]
      exact jget_inFrame_s_nonnum _ _ hvn
  · intro ht
    refine ⟨by rw [webSocketMessage_snap ht], ?_, ?_⟩
    · intro hst
      rw [jget_snapFrame_st]
      rcases hst with hst | hst <;> rw [hst] <;> rfl
    · intro v hv hvn
      rw [hv]
      exact jget_snapFrame_s_nonnum _ hvn

theorem relay_null_defaults_witness :
    jget demoInMsg "t" = some (.str "in") ∧
    (webSocketMessage demoTwo (some 0) (.parsed demoInMsg)).2 =
      broadcastExcept demoTwo.sockets 0
        (inFrame 0 (jsNullish (jget demoInMsg "i")) (jget demoInMsg "s")) ∧
    jget (inFrame 0 (jsNullish (jget demoInMsg "i")) (jget demoInMsg "s")) "i" =
      some .null ∧
    jget (inFrame 0 (jsNullish (jget demoInMsg "i")) (jget demoInMsg "s")) "s" = none :=
  ⟨rfl,
    ((relay_null_defaults_and_nonnum_s_dropped demoTwo 0 demoInMsg).1 rfl).1,
    ((relay_null_defaults_and_nonnum_s_dropped demoTwo 0 demoInMsg).1 rfl).2.1
      (Or.inl rfl),
    ((relay_null_defaults_and_nonnum_s_dropped demoTwo 0 demoInMsg).1 rfl).2.2
      (.str "x") rfl (fun _ h => JVal.noConfusion h)⟩
